import Mathlib

/-!
Verification development for `datatable.js`: a shallow embedding of the
DataTable component (formatters, column-name humanization, sort engine,
renderer) together with theorems settling the specification claims.

JavaScript numbers are modelled as exact fractions (an integer numerator
over a positive natural denominator, kept unnormalized so that every
arithmetic operation is structurally computable) plus the special values
`NaN`, `Infinity` and `-Infinity`.  Double-precision rounding artifacts are
not modelled; none of the proved properties depend on them.  Raw cell
values follow the spec's data model: number, string, or null/undefined.
-/

set_option maxRecDepth 10000

namespace Datatable

/-- An exact fraction `num / den` (denominator intended positive;
unnormalized so that all operations kernel-reduce). -/
structure Frac where
  num : Int
  den : Nat
deriving DecidableEq, Repr

/-- The rational value of a fraction (used only in proofs). -/
def Frac.val (f : Frac) : ℚ := (f.num : ℚ) / (f.den : ℚ)

/-- Embed an integer. -/
def Frac.ofInt (n : Int) : Frac := ⟨n, 1⟩

/-- Divide by a positive natural constant. -/
def Frac.divNat (f : Frac) (d : Nat) : Frac := ⟨f.num, f.den * d⟩

/-- Multiply by a natural constant. -/
def Frac.mulNat (f : Frac) (d : Nat) : Frac := ⟨f.num * d, f.den⟩

/-- Strict value comparison by cross-multiplication (valid for positive
denominators). -/
def Frac.lt (a b : Frac) : Bool := a.num * b.den < b.num * a.den

/-- `round(|f| * 10^p)`, computed as
`⌊(2 * |num| * 10^p + den) / (2 * den)⌋` in natural arithmetic
(half-away-from-zero on the absolute value, matching the `en-US`
`Intl.NumberFormat` default rounding). -/
def Frac.scaledRound (f : Frac) (p : Nat) : Nat :=
  (2 * f.num.natAbs * 10 ^ p + f.den) / (2 * f.den)

/-- A JavaScript number: NaN, ±Infinity, or a finite value. -/
inductive JSNum where
  | nan : JSNum
  | inf : JSNum
  | negInf : JSNum
  | fin (q : Frac) : JSNum
deriving DecidableEq, Repr

/-- A raw cell value per the spec's data model: number, string, or
null/undefined. -/
inductive JSVal where
  | null : JSVal
  | undefined : JSVal
  | num (n : JSNum) : JSVal
  | str (s : String) : JSVal
deriving DecidableEq, Repr

/-- Split a character list on a single separator character (JavaScript
`String.prototype.split` with a one-character separator, as used with
`"-"` and `"."`): empty segments are preserved. -/
def splitOnChar (sep : Char) : List Char → List (List Char)
  | [] => [[]]
  | c :: rest =>
    if c = sep then [] :: splitOnChar sep rest
    else
      match splitOnChar sep rest with
      | [] => [[c]]
      | seg :: segs => (c :: seg) :: segs

/-- Whitespace for `String.prototype.trim` (the characters relevant to
this model). -/
def isWS (c : Char) : Bool := c = ' ' ∨ c = '\t' ∨ c = '\n' ∨ c = '\r'

/-- `String.prototype.trim` on a character list. -/
def trimList (l : List Char) : List Char :=
  ((l.dropWhile isWS).reverse.dropWhile isWS).reverse

/-- Parse a list of decimal digit characters to a natural number;
`none` when empty or a non-digit is present. -/
def digitsToNat (l : List Char) : Option Nat :=
  if l ≠ [] ∧ l.all Char.isDigit then
    some (l.foldl (fun a c => a * 10 + (c.toNat - 48)) 0)
  else none

/-- JavaScript `Number(string)` coercion, modelled for plain decimal
literals (optional sign, digits, optional fractional part) and the empty
string; other forms (hex, exponent notation) coerce to NaN in this model.
No claim depends on string-to-number results beyond this fragment. -/
def strToNumber (s : String) : JSNum :=
  let t := trimList s.data
  if t = [] then .fin (.ofInt 0)
  else
    let (sgn, body) : Int × List Char :=
      match t with
      | '-' :: rest => (-1, rest)
      | '+' :: rest => (1, rest)
      | _ => (1, t)
    match splitOnChar '.' body with
    | [a] =>
      match digitsToNat a with
      | some n => .fin (.ofInt (sgn * n))
      | none => .nan
    | [a, b] =>
      match a, b with
      | [], bl =>
        match digitsToNat bl with
        | some nb => .fin ⟨sgn * nb, 10 ^ bl.length⟩
        | none => .nan
      | al, [] =>
        match digitsToNat al with
        | some na => .fin (.ofInt (sgn * na))
        | none => .nan
      | al, bl =>
        match digitsToNat al, digitsToNat bl with
        | some na, some nb => .fin ⟨sgn * (na * 10 ^ bl.length + nb), 10 ^ bl.length⟩
        | _, _ => .nan
    | _ => .nan

/-- JavaScript `Number(v)` coercion on the raw-value universe:
null → 0, undefined → NaN, numbers unchanged, strings parsed. -/
def toNumber (v : JSVal) : JSNum :=
  match v with
  | .null => .fin (.ofInt 0)
  | .undefined => .nan
  | .num n => n
  | .str s => strToNumber s

/-- JavaScript `isFinite(n)` on a coerced number. -/
def numIsFinite (n : JSNum) : Bool :=
  match n with
  | .fin _ => true
  | _ => false

/-- JavaScript truthiness on the raw-value universe.  Falsy values:
null, undefined, NaN, 0, and the empty string. -/
def jsFalsy (v : JSVal) : Bool :=
  match v with
  | .null => true
  | .undefined => true
  | .num .nan => true
  | .num (.fin q) => q.num = 0
  | .num _ => false
  | .str s => s = ""

/-- JavaScript division of a coerced number by a positive natural constant
(used by the CPM and thousands formatters). -/
def numDivConst (n : JSNum) (d : Nat) : JSNum :=
  match n with
  | .nan => .nan
  | .inf => .inf
  | .negInf => .negInf
  | .fin q => .fin (q.divNat d)

/-- JavaScript multiplication of a coerced number by a natural constant
(used by the percent formatter). -/
def numMulConst (n : JSNum) (d : Nat) : JSNum :=
  match n with
  | .nan => .nan
  | .inf => .inf
  | .negInf => .negInf
  | .fin q => .fin (q.mulNat d)

/-- Split a digit list (least-significant first) into groups of three,
for thousands grouping. -/
def chunksOfThree : List Char → List (List Char)
  | [] => []
  | [a] => [[a]]
  | [a, b] => [[a, b]]
  | a :: b :: c :: rest => [a, b, c] :: chunksOfThree rest

/-- Insert `","` thousands separators into a digit string, as `en-US`
`Intl.NumberFormat` grouping does. -/
def groupThousands (s : String) : String :=
  let groups := (chunksOfThree s.data.reverse).map List.reverse
  String.intercalate "," (groups.reverse.map fun g => String.mk g)

/-- Left-pad a digit string with zeros to the given width. -/
def padZeros (s : String) (width : Nat) : String :=
  String.mk (List.replicate (width - s.length) '0') ++ s

/-- `Intl.NumberFormat("en-US", { maximumFractionDigits: p,
minimumFractionDigits: p }).format(n)`: fixed `p` fractional digits,
`en-US` thousands grouping, half-away-from-zero rounding; NaN and the
infinities format to their glyphs. -/
def localeFormat (p : Nat) (n : JSNum) : String :=
  match n with
  | .nan => "NaN"
  | .inf => "∞"
  | .negInf => "-∞"
  | .fin q =>
    let scaled := q.scaledRound p
    let intPart := scaled / 10 ^ p
    let fracPart := scaled % 10 ^ p
    let intStr := groupThousands (Nat.repr intPart)
    let core := if p = 0 then intStr
      else intStr ++ "." ++ padZeros (Nat.repr fracPart) p
    if q.num < 0 then "-" ++ core else core

/-- Strip trailing `'0'` characters of the fractional part, then a
trailing `'.'` (for default-precision formatting). -/
def stripTrailingZeros (s : String) : String :=
  let l := s.data.reverse.dropWhile (· = '0')
  let l := if l.head? = some '.' then l.drop 1 else l
  String.mk l.reverse

/-- `Intl.NumberFormat("en-US", { maximumFractionDigits: undefined, ... })`
default behavior: up to three fractional digits, no trailing zeros.
Reached only when `formatFixed` is called with an undefined precision. -/
def localeFormatDefault (n : JSNum) : String :=
  match n with
  | .nan => "NaN"
  | .inf => "∞"
  | .negInf => "-∞"
  | .fin _ => stripTrailingZeros (localeFormat 3 n)

/-- Dispatch on a possibly-undefined precision, as `cachedLocales[precision]`
does (the locale cache is a pure memoization keyed by precision, so it is
not modelled separately). -/
def localeFormatOpt (p : Option Nat) (n : JSNum) : String :=
  match p with
  | some p => localeFormat p n
  | none => localeFormatDefault n

/-- `Number.prototype.toFixed(p)`: like fixed-precision locale formatting
but with no thousands grouping. -/
def toFixedStr (p : Nat) (n : JSNum) : String :=
  match n with
  | .nan => "NaN"
  | .inf => "Infinity"
  | .negInf => "-Infinity"
  | .fin q =>
    let scaled := q.scaledRound p
    let intPart := scaled / 10 ^ p
    let fracPart := scaled % 10 ^ p
    let core := if p = 0 then Nat.repr intPart
      else Nat.repr intPart ++ "." ++ padZeros (Nat.repr fracPart) p
    if q.num < 0 then "-" ++ core else core

/-- JavaScript number-to-string coercion.  Exact for integers; for
non-integers this model prints up to twenty fractional digits (JS prints
the shortest round-tripping representation of the double — the difference
is irrelevant to every claim, none of which formats a non-integer through
the default formatter). -/
def numToString (n : JSNum) : String :=
  match n with
  | .nan => "NaN"
  | .inf => "Infinity"
  | .negInf => "-Infinity"
  | .fin q =>
    if q.den = 1 then
      (if q.num < 0 then "-" else "") ++ Nat.repr q.num.natAbs
    else stripTrailingZeros (toFixedStr 20 (.fin q))

/-- JavaScript `"" + v` string coercion on the raw-value universe. -/
def jsToString (v : JSVal) : String :=
  match v with
  | .null => "null"
  | .undefined => "undefined"
  | .num n => numToString n
  | .str s => s

/-! ## Built-in formatters -/

/-- `isValidNumber = (v) => v != null && isFinite(v)`: the loose `!= null`
rejects null and undefined, and the global `isFinite` coerces and rejects
NaN and the infinities. -/
def isValidNumber (v : JSVal) : Bool :=
  !(v = .null ∨ v = .undefined) && numIsFinite (toNumber v)

/-- `formatCurrency(v, _, precision)`: `"-"` for invalid numbers, else
`"$"` plus the locale-formatted value at the given precision
(2 when the precision is null/undefined). -/
def formatCurrency (v : JSVal) (precision : Option Nat) : String :=
  if !isValidNumber v then "-"
  else
    let p := precision.getD 2
    "$" ++ localeFormat p (toNumber v)

/-- `formatDollars(v) = formatCurrency(v, null, 0)`. -/
def formatDollars (v : JSVal) : String := formatCurrency v (some 0)

/-- `formatCPM(v) = formatCurrency(v && v / 1000)`: the `&&` short-circuit
passes falsy `v` through unchanged, otherwise divides by 1000. -/
def formatCPM (v : JSVal) : String :=
  formatCurrency (if jsFalsy v then v else .num (numDivConst (toNumber v) 1000)) none

/-- `formatPercent(v, _, precision = 2)`: `"-"` for invalid numbers, else
the locale-formatted `v * 100` followed by `"%"`. -/
def formatPercent (v : JSVal) (precision : Nat := 2) : String :=
  if !isValidNumber v then "-"
  else localeFormat precision (numMulConst (toNumber v) 100) ++ "%"

/-- `formatPercent0(v) = formatPercent(v, null, 0)`. -/
def formatPercent0 (v : JSVal) : String := formatPercent v 0

/-- `formatPercent1(v) = formatPercent(v, null, 1)`. -/
def formatPercent1 (v : JSVal) : String := formatPercent v 1

/-- `formatFixed(v, _, precision)`: `"-"` for invalid numbers, else the
locale-formatted value (`cachedLocales[precision]`; an undefined precision
yields the locale default). -/
def formatFixed (v : JSVal) (precision : Option Nat) : String :=
  if !isValidNumber v then "-"
  else localeFormatOpt precision (toNumber v)

/-- `formatFixed0(v) = formatFixed(v, null, 0)`. -/
def formatFixed0 (v : JSVal) : String := formatFixed v (some 0)

/-- `formatFixed1(v) = formatFixed(v, null, 1)`. -/
def formatFixed1 (v : JSVal) : String := formatFixed v (some 1)

/-- `formatFixed2(v) = formatFixed(v, null, 2)`. -/
def formatFixed2 (v : JSVal) : String := formatFixed v (some 2)

/-- `formatThousands(v, row) = formatFixed(v / 1000.0, row, 1) + "K"`.
The division coerces `v` first: `null / 1000` is `0`, `undefined / 1000`
is `NaN`. -/
def formatThousands (v : JSVal) : String :=
  formatFixed (.num (numDivConst (toNumber v) 1000)) (some 1) ++ "K"

/-- `formatCalibration(v) = isValidNumber(v) ? v.toFixed(2) + "x" : "-"`.
`toFixed` is a method call on the raw value itself, not on its numeric
coercion: a string that passes `isValidNumber` (a finite-numeric string
such as `"3.5"`) has no `toFixed` method, so the call throws a
`TypeError`, modelled by `none`; only actual numbers reach the happy
path. -/
def formatCalibration (v : JSVal) : Option String :=
  if isValidNumber v then
    match v with
    | .num n => some (toFixedStr 2 n ++ "x")
    | _ => none
  else some "-"

/-- `truncate(s, length)` on a plain string argument:
`s.length <= length ? s : s.substring(s, length - 1) + "…"`.  The first
`substring` argument is the string itself, which coerces to NaN and is
treated as 0, so the cut is the first `length - 1` characters; a negative
`length - 1` end index is clamped to 0 (`Nat` subtraction models both). -/
def truncateStr (s : String) (length : Nat) : String :=
  if s.length ≤ length then s else String.mk (s.data.take (length - 1)) ++ "…"

/-- `truncate` applied to an arbitrary raw value.  `none` models a thrown
`TypeError`: reading `.length` of null/undefined throws, and on a number
`.length` is undefined (so the comparison is false) and the `.substring`
call throws. -/
def truncate (v : JSVal) (length : Nat) : Option String :=
  match v with
  | .str s => some (truncateStr s length)
  | _ => none

/-! ## Column-name humanization -/

/-- Replace the first occurrence of `pat` in a character list (JavaScript
`String.prototype.replace` with a non-global literal pattern). -/
def replaceFirstList (pat repl : List Char) : List Char → List Char
  | [] => if pat.isPrefixOf [] then repl else []
  | c :: rest =>
    if pat.isPrefixOf (c :: rest) then repl ++ (c :: rest).drop pat.length
    else c :: replaceFirstList pat repl rest

/-- `column.replace(pat, repl)` for a non-global literal pattern. -/
def replaceFirst (s pat repl : String) : String :=
  String.mk (replaceFirstList pat.data repl.data s.data)

/-- `column.replace(<trailing "-id" regex>, "-ID")`. -/
def replaceIdSuffix (s : String) : String :=
  if ['d', 'i', '-'].isPrefixOf s.data.reverse then
    String.mk (s.data.take (s.data.length - 3)) ++ "-ID"
  else s

/-- `w[0].toUpperCase() + w.slice(1)`.  `none` models the `TypeError`
thrown when the segment is empty (`w[0]` is undefined). -/
def capitalizeWord (w : String) : Option String :=
  match w.data with
  | [] => none
  | c :: rest => some (String.mk (c.toUpper :: rest))

/-- `DataTable.formatColumnName`: replace a trailing `-id` with `-ID`,
replace the first occurrences of `percent`, `pct` and `delta` with `%`,
`%` and `Δ`, split on `-`, capitalize each segment's first character, and
join with spaces.  `none` models a thrown `TypeError` (empty segment). -/
def formatColumnName (column : String) : Option String :=
  let column := replaceIdSuffix column
  let column := replaceFirst column "percent" "%"
  let column := replaceFirst column "pct" "%"
  let column := replaceFirst column "delta" "Δ"
  do
    let words ← ((splitOnChar '-' column.data).map String.mk).mapM capitalizeWord
    pure (String.intercalate " " words)

/-! ## JavaScript objects, JSON serialization, deep equality -/

/-- A flat JavaScript object with string values, as an insertion-ordered
association list (JS objects enumerate string keys in insertion order).
This is the shape of every sort-state object the component handles. -/
def JsObj := List (String × String)
deriving DecidableEq, Repr

/-- Property lookup on a flat object: first binding wins (a JS object
cannot hold duplicate keys, so well-formed values have none). -/
def lookupObj (obj : JsObj) (k : String) : Option String :=
  (List.find? (fun p => p.1 = k) obj).map (fun p => p.2)

/-- JSON string escaping for one character.  Control-character escapes are
not modelled (no claim involves them); quotes and backslashes are, which
keeps the serialization injective exactly as `JSON.stringify` is. -/
def escChar (c : Char) : List Char :=
  if c = '"' ∨ c = '\\' then ['\\', c] else [c]

/-- JSON string escaping over a character list. -/
def escList : List Char → List Char
  | [] => []
  | c :: rest => escChar c ++ escList rest

/-- `JSON.stringify` of a string (with surrounding quotes). -/
def jsonStr (s : String) : String :=
  "\"" ++ String.mk (escList s.data) ++ "\""

/-- `JSON.stringify` of a flat string-valued object. -/
def jsonStringify (obj : JsObj) : String :=
  "\x7b" ++
    String.intercalate ","
      (obj.map (fun p => jsonStr p.1 ++ ":" ++ jsonStr p.2)) ++
    "\x7d"

/-- `JSON.stringify` lifted to a possibly-undefined object
(`JSON.stringify(undefined)` is `undefined`, and `undefined === undefined`
holds, so `none` compares equal only to `none`). -/
def jsonStringifyOpt (o : Option JsObj) : Option String :=
  o.map jsonStringify

/-- Deep equality of two flat objects in the spec's sense: the same keys
bound to the same values, regardless of key order. -/
def jsDeepEqual (a b : JsObj) : Bool :=
  a.all (fun p => lookupObj b p.1 = lookupObj a p.1) &&
    b.all (fun p => lookupObj a p.1 = lookupObj b p.1)

/-! ## Rows and the DataTable component -/

/-- A row: an insertion-ordered mapping from column name to raw value. -/
def Row := List (String × JSVal)
deriving DecidableEq, Repr

/-- `row[column]` property access: `undefined` when the key is absent. -/
def rowGet (r : Row) (c : String) : JSVal :=
  ((List.find? (fun p => p.1 = c) r).map (fun p => p.2)).getD .undefined

/-- `Object.keys(row)`: each key once, in insertion order. -/
def dedupKeysAux (seen : List String) : List String → List String
  | [] => []
  | k :: rest =>
    if seen.contains k then dedupKeysAux seen rest
    else k :: dedupKeysAux (k :: seen) rest

/-- `Object.keys` on a row. -/
def objKeys (r : Row) : List String :=
  dedupKeysAux [] (List.map Prod.fst r)

/-- A column formatter: takes the cell value and the whole row.  The
registry models formatters as total string-valued functions (the built-in
numeric formatters are; `truncate`'s throwing behavior is modelled
separately). -/
def Formatter := JSVal → Row → String

/-- One rendered header cell: column key, display name, style class
attribute, and the sort-direction indicator class if any. -/
structure HeaderCell where
  column : String
  name : String
  klass : Option String
  sortClass : Option String
deriving DecidableEq, Repr

/-- One rendered body row: its `data-i` index, the underlying row, the
selection state class, and the formatted cell strings. -/
structure BodyRow where
  idx : Nat
  row : Row
  rowClass : Option String
  cells : List String
deriving DecidableEq, Repr

/-- The DataTable component state: configuration, the stored row
sequence, and the rendered header/body. -/
structure DataTable where
  columnNames : List (String × String)
  columns : Option (List String)
  pageSize : Int
  sortOptions : Option JsObj
  clickableColumns : List String
  formatters : List (String × Formatter)
  rows : List Row
  renderedColumns : List String
  thead : List HeaderCell
  tbody : List BodyRow

/-- Construction options; `none` models an absent (undefined) option. -/
structure Options where
  sort : Option JsObj := none
  formatters : Option (List (String × Formatter)) := none
  columns : Option (List String) := none
  columnNames : Option (List (String × String)) := none
  clickableColumns : Option (List String) := none
  pageSize : Option Int := none

/-- The `DataTable` constructor: `options.columnNames || []`,
`options.pageSize || 30` (every falsy page size — absent or 0 — becomes
30), `options.clickableColumns || []`, `options.formatters || {}`; the
element starts with an empty `<thead />` and `<tbody />`. -/
def DataTable.create (o : Options) : DataTable where
  columnNames := o.columnNames.getD []
  columns := o.columns
  pageSize := match o.pageSize with
    | none => 30
    | some p => if p = 0 then 30 else p
  sortOptions := o.sort
  clickableColumns := o.clickableColumns.getD []
  formatters := o.formatters.getD []
  rows := []
  renderedColumns := []
  thead := []
  tbody := []

/-- `setSortOptions(sortOptions)`: no-op when
`JSON.stringify(this.sortOptions) === JSON.stringify(sortOptions)`, else
replace the stored sort state. -/
def setSortOptions (st : DataTable) (so : Option JsObj) : DataTable :=
  if jsonStringifyOpt st.sortOptions = jsonStringifyOpt so then st
  else { st with sortOptions := so }

/-- The sort-state object built by a header click on column `c`:
flip the direction when `this.sortOptions?.column == column`, else
`{ column: c, order: "desc" }`. -/
def nextSortOptions (cur : Option JsObj) (c : String) : JsObj :=
  if (cur.bind (fun o => lookupObj o "column")) = some c then
    [("column", c),
     ("order",
      if (cur.bind (fun o => lookupObj o "order")) = some "asc" then "desc"
      else "asc")]
  else [("column", c), ("order", "desc")]

/-- The `<th>` branch of `onClick`: compute the next sort state, store it
through `setSortOptions`, and dispatch a `sortChange` event whose detail
carries `this.sortOptions` (read after the store).  Returns the new state
and the event payload. -/
def clickHeader (st : DataTable) (c : String) : DataTable × Option JsObj :=
  let st' := setSortOptions st (some (nextSortOptions st.sortOptions c))
  (st', st'.sortOptions)

/-! ## Sorting -/

/-- JavaScript `a < b` on raw values: two strings compare
lexicographically; otherwise both sides coerce to numbers, and any
comparison involving NaN is false. -/
def jsLt (a b : JSVal) : Bool :=
  match a, b with
  | .str s, .str t => decide (s < t)
  | _, _ =>
    match toNumber a, toNumber b with
    | .fin p, .fin q => p.lt q
    | .fin _, .inf => true
    | .negInf, .fin _ => true
    | .negInf, .inf => true
    | _, _ => false

/-- The three-way `compare` from `renderRows`:
`a < b ? -1 : a > b ? 1 : 0` (JS `a > b` is `b < a` on this universe). -/
def compareJS (a b : JSVal) : Int :=
  if jsLt a b then -1 else if jsLt b a then 1 else 0

/-- The comparator chosen from the sort options: ascending compares
`a[column], b[column]`, descending swaps the inputs.  An absent `column`
key reads property `"undefined"`, as `a[undefined]` does. -/
def rowComparator (so : JsObj) (a b : Row) : Int :=
  let c := (lookupObj so "column").getD "undefined"
  if lookupObj so "order" = some "asc" then compareJS (rowGet a c) (rowGet b c)
  else compareJS (rowGet b c) (rowGet a c)

/-- Stable insertion into a sorted list (`le x y` means `x` may precede
`y`; ties keep the inserted element first, since it came earlier). -/
def insertSorted (le : α → α → Bool) (x : α) : List α → List α
  | [] => [x]
  | y :: ys => if le x y then x :: y :: ys else y :: insertSorted le x ys

/-- Stable insertion sort, the model of `Array.prototype.sort` with a
user comparator (ECMAScript sort is stable and, for a consistent
comparator, produces an order consistent with it). -/
def insertionSort (le : α → α → Bool) : List α → List α
  | [] => []
  | x :: rest => insertSorted le x (insertionSort le rest)

/-- The sort step of `renderRows`: reorder the stored rows by the
comparator when sort options are set. -/
def sortRows (so : Option JsObj) (rows : List Row) : List Row :=
  match so with
  | none => rows
  | some obj => insertionSort (fun a b => rowComparator obj a b ≤ 0) rows

/-! ## Rendering -/

/-- The alignment heuristic regex
`^[$]*[0-9,.\-]+[%xKMG]*$` as a direct scan: optional leading dollar
signs, then at least one numeric-ish character, then optional trailing
unit characters.  Because the three character classes are pairwise
disjoint, the greedy scan is equivalent to the regex. -/
def isNumericStr (s : String) : Bool :=
  let l := s.data.dropWhile (fun c => c = '$')
  let a := l.takeWhile (fun c => c.isDigit ∨ c = ',' ∨ c = '.' ∨ c = '-')
  decide (a ≠ []) &&
    (l.drop a.length).all (fun c => c = '%' ∨ c = 'x' ∨ c = 'K' ∨ c = 'M' ∨ c = 'G')

/-- `format(col, row)`: the configured formatter when present, else
string coercion of the raw value. -/
def formatCell (fmts : List (String × Formatter)) (col : String) (row : Row) : String :=
  match (List.find? (fun p => p.1 = col) fmts).map (fun p => p.2) with
  | some f => f (rowGet row col) row
  | none => jsToString (rowGet row col)

/-- The per-column style classes (`clickable`, `number`), computed from
the first row's formatted values and joined with `","`. -/
def colStyle (st : DataTable) (firstRow : Row) (c : String) : Option String :=
  let classNames :=
    (if st.clickableColumns.contains c then ["clickable"] else []) ++
      (if isNumericStr (formatCell st.formatters c firstRow) then ["number"] else [])
  if classNames = [] then none else some (String.intercalate "," classNames)

/-- Resolve one header display name:
`this.columnNames[col] || DataTable.formatColumnName(col)` (an explicit
empty-string name is falsy and falls through). -/
def headerName (st : DataTable) (col : String) : Option String :=
  match (List.find? (fun p => p.1 = col) st.columnNames).map (fun p => p.2) with
  | some n => if n = "" then formatColumnName col else some n
  | none => formatColumnName col

/-- Add the sort-direction indicator class to the header cell at the
index of the sort column, when that column is among the rendered columns
(`columns.indexOf(...) >= 0`). -/
def markSortHeader (so : Option JsObj) (columns : List String)
    (cells : List HeaderCell) : List HeaderCell :=
  match so with
  | none => cells
  | some obj =>
    match columns.indexOf? ((lookupObj obj "column").getD "undefined") with
    | none => cells
    | some i =>
      cells.enum.map fun p =>
        if p.1 = i then
          { p.2 with sortClass := some ((lookupObj obj "order").getD "undefined") }
        else p.2

/-- `renderRows(rows, isSelectedFn)`.  Stores the rows; on an empty
sequence clears the body and returns.  Otherwise sorts in place, resolves
columns (explicit list or the first post-sort row's keys), builds the
header (`none` models a thrown `TypeError` from `formatColumnName` on a
malformed column key), marks the sort indicator, and renders the first
`Math.min(rows.length, pageSize)` rows of the sorted sequence. -/
def renderRows (st : DataTable) (rows : List Row)
    (isSelectedFn : Option (Row → Bool)) : Option DataTable :=
  let st := { st with rows := rows }
  match rows with
  | [] => some { st with tbody := [] }
  | first :: _ =>
    let sorted := sortRows st.sortOptions rows
    let st := { st with rows := sorted }
    -- `this.rows[0]` after the in-place sort; sorting a nonempty sequence
    -- is nonempty, so the default is never used.
    let firstRow := sorted.headD first
    let columns := st.columns.getD (objKeys firstRow)
    let st := { st with renderedColumns := columns }
    match columns.mapM (fun col => do
        let name ← headerName st col
        pure (HeaderCell.mk col name (colStyle st firstRow col) none)) with
    | none => none
    | some headCells =>
      let headCells := markSortHeader st.sortOptions columns headCells
      let rowCount := (min (sorted.length : Int) st.pageSize).toNat
      let body := (sorted.take rowCount).enum.map fun p =>
        BodyRow.mk p.1 p.2
          (isSelectedFn.map fun f => if f p.2 then "selected" else "unselected")
          (columns.map fun col => formatCell st.formatters col p.2)
      some { st with thead := headCells, tbody := body }

/-! ## Concrete component instances used by witnesses and counterexamples -/

/-- A sample row with an integer `"a"` field and a string `"b"` field. -/
def sampleRow (n : Int) : Row := [("a", .num (.fin ⟨n, 1⟩)), ("b", .str "x")]

/-- A table constructed with an initial descending sort on `"a"`. -/
def tableDesc : DataTable :=
  DataTable.create { sort := some [("column", "a"), ("order", "desc")] }

/-- A table constructed with an initial ascending sort on `"a"`. -/
def tableAsc : DataTable :=
  DataTable.create { sort := some [("column", "a"), ("order", "asc")] }

/-- A table constructed with no options. -/
def tablePlain : DataTable := DataTable.create {}

/-- A table constructed with a (truthy) negative page size. -/
def tableNegPage : DataTable := DataTable.create { pageSize := some (-1) }

/-- Fifty sample rows. -/
def sampleRows50 : List Row := (List.range 50).map (fun i => sampleRow i)

/-- Three sample rows with keys out of order. -/
def sampleRows3 : List Row := [sampleRow 3, sampleRow 1, sampleRow 2]

/-- The result of rendering the fifty sample rows on the plain table. -/
def sample50Rendered : DataTable :=
  (renderRows tablePlain sampleRows50 none).getD tablePlain

/-- A row carries a well-formed finite number in column `c` (the spec's
"numeric column": a comparable, non-NaN value). -/
def finiteKey (c : String) (r : Row) : Prop :=
  ∃ f : Frac, rowGet r c = .num (.fin f) ∧ 0 < f.den

end Datatable

namespace Datatable

/-! ## Claim theorems -/

/-- C1, counterexample: `formatThousands`, applied to `null`, returns
`"0.0K"`, not `"-"` (`null / 1000` coerces to `0`); on `undefined` and
`NaN` it returns `"-K"`. -/
theorem counterexample_C1 :
    formatThousands .null = "0.0K" ∧ formatThousands .null ≠ "-" ∧
      formatThousands .undefined = "-K" ∧ formatThousands (.num .nan) = "-K" := by
  decide

/-- C1, amended: every built-in formatter except `formatThousands` returns
exactly `"-"` on null, undefined and NaN input (for every precision
argument); `formatThousands` instead returns `"0.0K"` on null and `"-K"`
on undefined and NaN. -/
theorem claim_C1 (p : Option Nat) (pn : Nat) :
    (formatCurrency .null p = "-" ∧ formatDollars .null = "-" ∧ formatCPM .null = "-" ∧
      formatPercent .null pn = "-" ∧ formatPercent0 .null = "-" ∧ formatPercent1 .null = "-" ∧
      formatFixed .null p = "-" ∧ formatFixed0 .null = "-" ∧ formatFixed1 .null = "-" ∧
      formatFixed2 .null = "-" ∧ formatCalibration .null = some "-" ∧
      formatThousands .null = "0.0K") ∧
    (formatCurrency .undefined p = "-" ∧ formatDollars .undefined = "-" ∧
      formatCPM .undefined = "-" ∧ formatPercent .undefined pn = "-" ∧
      formatPercent0 .undefined = "-" ∧ formatPercent1 .undefined = "-" ∧
      formatFixed .undefined p = "-" ∧ formatFixed0 .undefined = "-" ∧
      formatFixed1 .undefined = "-" ∧ formatFixed2 .undefined = "-" ∧
      formatCalibration .undefined = some "-" ∧ formatThousands .undefined = "-K") ∧
    (formatCurrency (.num .nan) p = "-" ∧ formatDollars (.num .nan) = "-" ∧
      formatCPM (.num .nan) = "-" ∧ formatPercent (.num .nan) pn = "-" ∧
      formatPercent0 (.num .nan) = "-" ∧ formatPercent1 (.num .nan) = "-" ∧
      formatFixed (.num .nan) p = "-" ∧ formatFixed0 (.num .nan) = "-" ∧
      formatFixed1 (.num .nan) = "-" ∧ formatFixed2 (.num .nan) = "-" ∧
      formatCalibration (.num .nan) = some "-" ∧ formatThousands (.num .nan) = "-K") := by
  refine ⟨⟨rfl, rfl, rfl, rfl, rfl, rfl, rfl, rfl, rfl, rfl, rfl, rfl⟩,
    ⟨rfl, rfl, rfl, rfl, rfl, rfl, rfl, rfl, rfl, rfl, rfl, rfl⟩,
    ⟨rfl, rfl, rfl, rfl, rfl, rfl, rfl, rfl, rfl, rfl, rfl, rfl⟩⟩

/-- C4: the code of `formatColumnName` maps `"pct-qps"` to `"% Qps"`
(only the first letter of a segment is uppercased), while its own doc
comment and the spec promise `"% QPS"`; the other two documented examples
hold. -/
theorem claim_C4 :
    formatColumnName "pct-qps" = some "% Qps" ∧
      formatColumnName "pct-qps" ≠ some "% QPS" ∧
      formatColumnName "user-id" = some "User ID" ∧
      formatColumnName "spend-delta" = some "Spend Δ" := by
  decide

/-- C5, counterexample: `truncate` applied to `null` throws a `TypeError`
(reading `.length` of null), and `formatCalibration` applied to the
finite-numeric string `"3.5"` passes `isValidNumber` and then throws a
`TypeError` (`String.prototype` has no `toFixed`) — both modelled by
`none`, rather than returning a string. -/
theorem counterexample_C5 :
    truncate .null 5 = none ∧ formatCalibration (.str "3.5") = none := by
  decide

/-- C5, amended: the locale-backed built-ins (currency, percent, fixed,
thousands and their variants) are total string-valued functions on the
whole raw-value universe, but two built-ins throw: `truncate` returns a
string exactly when its input is a string, and `formatCalibration`
throws exactly on the string inputs that pass the `isValidNumber` guard
(its `v.toFixed(2)` is a method call on the raw value). -/
theorem claim_C5 (v : JSVal) (n : Nat) :
    (truncate v n = none ↔ ∀ s, v ≠ .str s) ∧
      (formatCalibration v = none ↔ isValidNumber v = true ∧ ∃ s, v = .str s) := by
  constructor
  · cases v <;> simp [truncate]
  · cases v with
    | null => simp [formatCalibration, show isValidNumber JSVal.null = false by decide]
    | undefined => simp [formatCalibration, show isValidNumber JSVal.undefined = false by decide]
    | num m =>
      by_cases h : isValidNumber (.num m) = true
      · simp [formatCalibration, h]
      · simp [formatCalibration, h]
    | str s =>
      by_cases h : isValidNumber (.str s) = true
      · simp [formatCalibration, h]
      · simp [formatCalibration, h]

/-- C6, counterexample: with `maxLength = 0` and a non-empty string, the
result is the bare ellipsis, whose length 1 exceeds `maxLength`. -/
theorem counterexample_C6 :
    truncateStr "ab" 0 = "…" ∧ (truncateStr "ab" 0).length = 1 ∧
      ¬((truncateStr "ab" 0).length ≤ 0) := by
  decide

/-- C6, amended: for `maxLength ≥ 1`, `truncate` returns the string
unchanged when it fits, and otherwise the first `maxLength - 1`
characters followed by the ellipsis, for a total length of exactly
`maxLength` (for `maxLength = 0` the result is one character long). -/
theorem claim_C6 (s : String) (n : Nat) (h : 1 ≤ n) :
    (s.length ≤ n → truncateStr s n = s) ∧
      (n < s.length →
        truncateStr s n = String.mk (s.data.take (n - 1)) ++ "…" ∧
          (truncateStr s n).length = n) := by
  constructor
  · intro hle
    simp [truncateStr, hle]
  · intro hlt
    have hnle : ¬(s.length ≤ n) := by omega
    refine ⟨by simp [truncateStr, hnle], ?_⟩
    have hdata : s.length = s.data.length := rfl
    simp only [truncateStr, hnle, if_false]
    have heq : (String.mk (s.data.take (n - 1)) ++ "…") =
        String.mk (s.data.take (n - 1) ++ ['…']) := rfl
    have : (String.mk (s.data.take (n - 1) ++ ['…'])).length =
        (s.data.take (n - 1)).length + 1 := by
      show (s.data.take (n - 1) ++ ['…']).length = _
      rw [List.length_append]
      rfl
    rw [heq, this, List.length_take]
    omega

/-- C6, witness: the amended claim at `("hello world", 5)`, together with
the spec's concrete examples. -/
theorem claim_C6_witness :
    (1 ≤ 5 ∧
      (("hello world".length ≤ 5 → truncateStr "hello world" 5 = "hello world") ∧
        (5 < "hello world".length →
          truncateStr "hello world" 5 =
              String.mk ("hello world".data.take (5 - 1)) ++ "…" ∧
            (truncateStr "hello world" 5).length = 5))) ∧
      truncateStr "hello world" 5 = "hell…" ∧ truncateStr "hi" 5 = "hi" :=
  ⟨⟨by decide, claim_C6 "hello world" 5 (by decide)⟩, by decide, by decide⟩

/-- C8: rendering an empty row sequence stores the rows, clears the body,
and leaves every other field — in particular the rendered header — exactly
as it was, returning normally. -/
theorem claim_C8 (st : DataTable) (sel : Option (Row → Bool)) :
    renderRows st [] sel = some { st with rows := [], tbody := [] } := rfl

/-- C10, counterexample: a negative page size is truthy, so the
constructor keeps it, and rendering one row then produces zero body rows —
so it is possible to configure zero rendered body rows via `pageSize`. -/
theorem counterexample_C10 :
    tableNegPage.pageSize = -1 ∧
      (renderRows tableNegPage [sampleRow 1] none).map (fun st => st.tbody) =
        some [] := by
  decide

/-- C10, amended: every falsy `pageSize` (absent, or 0) is replaced by the
default 30, and the effective page size is never 0; however negative page
sizes are kept, so a zero-body-row configuration is still reachable. -/
theorem claim_C10 (o : Options) (h : o.pageSize = some 0 ∨ o.pageSize = none) :
    (DataTable.create o).pageSize = 30 ∧
      ∀ o' : Options, (DataTable.create o').pageSize ≠ 0 := by
  constructor
  · rcases h with h | h <;> simp [DataTable.create, h]
  · intro o'
    rcases ho : o'.pageSize with _ | p
    · simp [DataTable.create, ho]
    · by_cases hp : p = 0
      · simp [DataTable.create, ho, hp]
      · simp [DataTable.create, ho, hp]

/-- C10, witness: the amended claim applied at an explicit `pageSize: 0`
configuration. -/
theorem claim_C10_witness :
    (DataTable.create { pageSize := some 0 }).pageSize = 30 ∧
      ∀ o' : Options, (DataTable.create o').pageSize ≠ 0 :=
  claim_C10 { pageSize := some 0 } (Or.inl rfl)

/-! ## Injectivity of the JSON serialization (needed for the sort engine) -/

/-- JSON escaping is a prefix code relative to a following unescaped
quote: if two escaped bodies followed by quote-initial suffixes agree,
the bodies and suffixes agree.  (An escaped body never contains an
unescaped quote, so the closing quote delimits it unambiguously.) -/
theorem escList_append_inj : ∀ (l1 l2 r1 r2 : List Char),
    r1.head? = some '"' → r2.head? = some '"' →
    escList l1 ++ r1 = escList l2 ++ r2 → l1 = l2 ∧ r1 = r2 := by
  intro l1
  induction l1 with
  | nil =>
    intro l2 r1 r2 h1 h2 h
    cases l2 with
    | nil => exact ⟨rfl, h⟩
    | cons b t2 =>
      exfalso
      simp only [escList, List.nil_append, List.append_assoc] at h
      rw [h] at h1
      by_cases hb : b = '"' ∨ b = '\\'
      · simp [escChar, hb] at h1
      · simp [escChar, hb] at h1
        exact hb (Or.inl h1)
  | cons a t1 ih =>
    intro l2 r1 r2 h1 h2 h
    cases l2 with
    | nil =>
      exfalso
      simp only [escList, List.nil_append, List.append_assoc] at h
      rw [← h] at h2
      by_cases ha : a = '"' ∨ a = '\\'
      · simp [escChar, ha] at h2
      · simp [escChar, ha] at h2
        exact ha (Or.inl h2)
    | cons b t2 =>
      by_cases ha : a = '"' ∨ a = '\\' <;> by_cases hb : b = '"' ∨ b = '\\'
      · simp only [escList, escChar, if_pos ha, if_pos hb, List.cons_append,
          List.append_assoc, List.cons.injEq] at h
        obtain ⟨hab, h⟩ := h.2
        obtain ⟨ht, hr⟩ := ih t2 r1 r2 h1 h2
          (by rw [← List.append_assoc, ← List.append_assoc] at h; exact h)
        exact ⟨by rw [hab, ht], hr⟩
      · exfalso
        simp only [escList, escChar, if_pos ha, if_neg hb, List.cons_append,
          List.cons.injEq] at h
        exact hb (Or.inr h.1.symm)
      · exfalso
        simp only [escList, escChar, if_neg ha, if_pos hb, List.cons_append,
          List.cons.injEq] at h
        exact ha (Or.inr h.1)
      · simp only [escList, escChar, if_neg ha, if_neg hb, List.cons_append,
          List.cons.injEq] at h
        obtain ⟨hab, h⟩ := h
        obtain ⟨ht, hr⟩ := ih t2 r1 r2 h1 h2 h
        exact ⟨by rw [hab, ht], hr⟩

/-- The serialized form of a two-key sort-state object, as a character
list. -/
theorem jsonStringify_pair_data (x y : String) :
    (jsonStringify [("column", x), ("order", y)]).data =
      '\x7b' :: '"' :: 'c' :: 'o' :: 'l' :: 'u' :: 'm' :: 'n' :: '"' :: ':' :: '"' ::
        (escList x.data ++ ('"' :: ',' :: '"' :: 'o' :: 'r' :: 'd' :: 'e' :: 'r' :: '"' :: ':' :: '"' ::
          (escList y.data ++ ['"', '\x7d']))) := by
  show ("\x7b" ++
    String.intercalate "," [jsonStr "column" ++ ":" ++ jsonStr x, jsonStr "order" ++ ":" ++ jsonStr y] ++
    "\x7d").data = _
  simp [String.intercalate, String.intercalate.go, jsonStr, escList, escChar]

/-- `JSON.stringify` is injective on two-key sort-state objects. -/
theorem jsonStringify_pair_inj (x1 y1 x2 y2 : String)
    (h : jsonStringify [("column", x1), ("order", y1)] =
      jsonStringify [("column", x2), ("order", y2)]) : x1 = x2 ∧ y1 = y2 := by
  have h' := congrArg String.data h
  rw [jsonStringify_pair_data, jsonStringify_pair_data] at h'
  simp only [List.cons.injEq, true_and] at h'
  obtain ⟨hx, hm⟩ := escList_append_inj _ _ _ _ (by rfl) (by rfl) h'
  simp only [List.cons.injEq, true_and] at hm
  obtain ⟨hy, -⟩ := escList_append_inj _ _ _ _ (by rfl) (by rfl) hm
  constructor
  · show String.mk x1.data = String.mk x2.data
    rw [hx]
  · show String.mk y1.data = String.mk y2.data
    rw [hy]

/-- C7, counterexample: a sort state deep-equal to the current one but
with its keys in the other order does not serialize equally, so
`setSortOptions` replaces the stored state — the claimed universal no-op
for deep-equal inputs fails. -/
theorem counterexample_C7 :
    jsDeepEqual [("column", "a"), ("order", "desc")] [("order", "desc"), ("column", "a")] = true ∧
      tableDesc.sortOptions = some [("column", "a"), ("order", "desc")] ∧
      (setSortOptions tableDesc (some [("order", "desc"), ("column", "a")])).sortOptions =
        some [("order", "desc"), ("column", "a")] ∧
      (setSortOptions tableDesc (some [("order", "desc"), ("column", "a")])).sortOptions ≠
        tableDesc.sortOptions := by
  decide

/-- C7, amended: `setSortOptions(next)` leaves the component untouched
exactly when `next` has the same `JSON.stringify` serialization as the
current state (same keys, same order, same values); otherwise — including
when `next` is deep-equal but lists its keys in a different order — the
stored sort state is replaced by `next`. -/
theorem claim_C7 (st : DataTable) (next : Option JsObj) :
    (jsonStringifyOpt st.sortOptions = jsonStringifyOpt next →
      setSortOptions st next = st) ∧
    (jsonStringifyOpt st.sortOptions ≠ jsonStringifyOpt next →
      (setSortOptions st next).sortOptions = next) := by
  constructor
  · intro h
    simp [setSortOptions, h]
  · intro h
    simp [setSortOptions, h]

/-- C7, witness: re-setting the identical sort state (same key order) is
a no-op on the whole component. -/
theorem claim_C7_witness :
    setSortOptions tableDesc (some [("column", "a"), ("order", "desc")]) = tableDesc :=
  (claim_C7 tableDesc (some [("column", "a"), ("order", "desc")])).1 rfl

/-- C2: a header click on the current sort column flips the direction
(asc ↔ desc) and keeps the column; a click on any other column — or with
no sort state set — installs that column with direction `"desc"`; in every
case the stored state is replaced and the dispatched `sortChange` payload
carries exactly the new state. -/
theorem claim_C2 (st : DataTable) (c : String) :
    (st.sortOptions = none →
      clickHeader st c =
        ({ st with sortOptions := some [("column", c), ("order", "desc")] },
          some [("column", c), ("order", "desc")])) ∧
    (∀ c0 o0 : String, st.sortOptions = some [("column", c0), ("order", o0)] →
      o0 = "asc" ∨ o0 = "desc" →
      (c0 = c →
        clickHeader st c =
          ({ st with sortOptions := some [("column", c), ("order", if o0 = "asc" then "desc" else "asc")] },
            some [("column", c), ("order", if o0 = "asc" then "desc" else "asc")])) ∧
      (c0 ≠ c →
        clickHeader st c =
          ({ st with sortOptions := some [("column", c), ("order", "desc")] },
            some [("column", c), ("order", "desc")]))) := by
  constructor
  · intro h
    simp [clickHeader, nextSortOptions, setSortOptions, jsonStringifyOpt, h]
  · intro c0 o0 h ho
    have hcol : lookupObj [("column", c0), ("order", o0)] "column" = some c0 := rfl
    have hord : lookupObj [("column", c0), ("order", o0)] "order" = some o0 := rfl
    constructor
    · intro hc
      subst hc
      have hnext : nextSortOptions st.sortOptions c0 =
          [("column", c0), ("order", if o0 = "asc" then "desc" else "asc")] := by
        simp [nextSortOptions, h, hcol, hord]
      have hne : jsonStringifyOpt st.sortOptions ≠
          jsonStringifyOpt (some [("column", c0), ("order", if o0 = "asc" then "desc" else "asc")]) := by
        rw [h]
        intro heq
        simp only [jsonStringifyOpt, Option.map, Option.some.injEq] at heq
        obtain ⟨-, hflip⟩ := jsonStringify_pair_inj _ _ _ _ heq
        rcases ho with rfl | rfl
        · simp at hflip
        · simp at hflip
      simp [clickHeader, hnext, setSortOptions, hne]
    · intro hc
      have hnext : nextSortOptions st.sortOptions c =
          [("column", c), ("order", "desc")] := by
        simp [nextSortOptions, h, hcol, hc]
      have hne : jsonStringifyOpt st.sortOptions ≠
          jsonStringifyOpt (some [("column", c), ("order", "desc")]) := by
        rw [h]
        intro heq
        simp only [jsonStringifyOpt, Option.map, Option.some.injEq] at heq
        obtain ⟨hcc, -⟩ := jsonStringify_pair_inj _ _ _ _ heq
        exact hc hcc
      simp [clickHeader, hnext, setSortOptions, hne]

/-- C2, witness: on a table sorted descending by `"a"`, clicking the
`"a"` header flips to ascending and the event carries the new state;
clicking it again on the updated table flips back to descending. -/
theorem claim_C2_witness :
    clickHeader tableDesc "a" =
      ({ tableDesc with sortOptions := some [("column", "a"), ("order", "asc")] },
        some [("column", "a"), ("order", "asc")]) := by
  have h := ((claim_C2 tableDesc "a").2 "a" "desc" rfl (Or.inr rfl)).1 rfl
  simpa using h

/-! ## Sorting lemmas -/

/-- Inserting into a list yields a permutation of consing. -/
theorem insertSorted_perm (le : α → α → Bool) (x : α) (l : List α) :
    List.Perm (insertSorted le x l) (x :: l) := by
  induction l with
  | nil => exact List.Perm.refl _
  | cons y ys ih =>
    by_cases h : le x y = true
    · simp [insertSorted, h]
    · simp only [insertSorted, if_neg h]
      exact (ih.cons y).trans (List.Perm.swap x y ys)

/-- Insertion sort permutes its input. -/
theorem insertionSort_perm (le : α → α → Bool) (l : List α) :
    List.Perm (insertionSort le l) l := by
  induction l with
  | nil => exact List.Perm.refl _
  | cons x xs ih => exact (insertSorted_perm le x _).trans (ih.cons x)

/-- The sort step preserves the number of rows. -/
theorem sortRows_length (so : Option JsObj) (l : List Row) :
    (sortRows so l).length = l.length := by
  cases so with
  | none => rfl
  | some obj => exact (insertionSort_perm _ l).length_eq

/-- Inserting an element into a sorted list keeps it sorted, provided the
comparison is total and transitive on the elements involved. -/
theorem pairwise_insertSorted (le : α → α → Bool) (P : α → Prop)
    (htot : ∀ a b, P a → P b → le a b = true ∨ le b a = true)
    (htrans : ∀ a b z, P a → P b → P z → le a b = true → le b z = true → le a z = true)
    (x : α) (l : List α) (hx : P x) (hl : ∀ y ∈ l, P y)
    (hp : l.Pairwise (fun a b => le a b = true)) :
    (insertSorted le x l).Pairwise (fun a b => le a b = true) := by
  induction l with
  | nil => simp [insertSorted]
  | cons y ys ih =>
    rw [List.pairwise_cons] at hp
    obtain ⟨hy_ys, hys⟩ := hp
    by_cases hxy : le x y = true
    · simp only [insertSorted, if_pos hxy]
      rw [List.pairwise_cons]
      refine ⟨?_, by rw [List.pairwise_cons]; exact ⟨hy_ys, hys⟩⟩
      intro z hz
      rcases List.mem_cons.mp hz with rfl | hz'
      · exact hxy
      · exact htrans x y z hx (hl y (List.mem_cons_self y ys))
          (hl z (List.mem_cons_of_mem y hz')) hxy (hy_ys z hz')
    · simp only [insertSorted, if_neg hxy]
      rw [List.pairwise_cons]
      constructor
      · intro z hz
        have hmem := (insertSorted_perm le x ys).mem_iff.mp hz
        rcases List.mem_cons.mp hmem with heq | hz'
        · rcases htot x y hx (hl y (List.mem_cons_self y ys)) with h | h
          · exact absurd h hxy
          · rw [heq]
            exact h
        · exact hy_ys z hz'
      · exact ih (fun w hw => hl w (List.mem_cons_of_mem y hw)) hys

/-- Insertion sort sorts, provided the comparison is total and transitive
on the list's elements. -/
theorem pairwise_insertionSort (le : α → α → Bool) (P : α → Prop)
    (htot : ∀ a b, P a → P b → le a b = true ∨ le b a = true)
    (htrans : ∀ a b z, P a → P b → P z → le a b = true → le b z = true → le a z = true)
    (l : List α) (hl : ∀ y ∈ l, P y) :
    (insertionSort le l).Pairwise (fun a b => le a b = true) := by
  induction l with
  | nil => simp [insertionSort]
  | cons x xs ih =>
    refine pairwise_insertSorted le P htot htrans x _ (hl x (List.mem_cons_self x xs))
      (fun y hy => hl y (List.mem_cons_of_mem x ((insertionSort_perm le xs).mem_iff.mp hy)))
      (ih (fun y hy => hl y (List.mem_cons_of_mem x hy)))

/-- Cross-multiplication comparison agrees with the rational order (for
positive denominators). -/
theorem Frac.lt_iff (a b : Frac) (ha : 0 < a.den) (hb : 0 < b.den) :
    (a.lt b = true) ↔ a.val < b.val := by
  have ha' : (0 : ℚ) < (a.den : ℚ) := by exact_mod_cast ha
  have hb' : (0 : ℚ) < (b.den : ℚ) := by exact_mod_cast hb
  unfold Frac.lt Frac.val
  rw [div_lt_div_iff₀ ha' hb', decide_eq_true_eq]
  constructor
  · intro h
    exact_mod_cast h
  · intro h
    exact_mod_cast h

/-- `jsLt` on two finite numbers is the fraction comparison. -/
theorem jsLt_fin (f g : Frac) :
    jsLt (.num (.fin f)) (.num (.fin g)) = f.lt g := rfl

/-- The three-way comparison is non-positive exactly when the first key
is at most the second (for well-formed finite keys). -/
theorem compareJS_le_iff (f g : Frac) (hf : 0 < f.den) (hg : 0 < g.den) :
    compareJS (.num (.fin f)) (.num (.fin g)) ≤ 0 ↔ f.val ≤ g.val := by
  unfold compareJS
  rw [jsLt_fin, jsLt_fin]
  by_cases h1 : f.lt g = true
  · rw [if_pos h1]
    exact iff_of_true (by decide) (le_of_lt ((Frac.lt_iff f g hf hg).1 h1))
  · rw [if_neg h1]
    by_cases h2 : g.lt f = true
    · rw [if_pos h2]
      exact iff_of_false (by decide) (not_le.mpr ((Frac.lt_iff g f hg hf).1 h2))
    · rw [if_neg h2]
      exact iff_of_true (by decide)
        (le_of_not_lt fun hlt => h2 ((Frac.lt_iff g f hg hf).2 hlt))

/-- The ascending comparator evaluated on rows. -/
theorem rowComparator_asc (c : String) (a b : Row) :
    rowComparator [("column", c), ("order", "asc")] a b =
      compareJS (rowGet a c) (rowGet b c) := rfl

/-- The descending comparator evaluated on rows (inputs swapped). -/
theorem rowComparator_desc (c : String) (a b : Row) :
    rowComparator [("column", c), ("order", "desc")] a b =
      compareJS (rowGet b c) (rowGet a c) := rfl

/-- The ascending row ordering agrees with the rational order of the
keys. -/
theorem asc_le_iff (c : String) (a b : Row) (fa fb : Frac)
    (hfa : rowGet a c = .num (.fin fa)) (hfb : rowGet b c = .num (.fin fb))
    (ha : 0 < fa.den) (hb : 0 < fb.den) :
    (decide (rowComparator [("column", c), ("order", "asc")] a b ≤ 0) = true) ↔
      fa.val ≤ fb.val := by
  rw [decide_eq_true_eq, rowComparator_asc, hfa, hfb]
  exact compareJS_le_iff fa fb ha hb

/-- The descending row ordering agrees with the reversed rational order
of the keys. -/
theorem desc_le_iff (c : String) (a b : Row) (fa fb : Frac)
    (hfa : rowGet a c = .num (.fin fa)) (hfb : rowGet b c = .num (.fin fb))
    (ha : 0 < fa.den) (hb : 0 < fb.den) :
    (decide (rowComparator [("column", c), ("order", "desc")] a b ≤ 0) = true) ↔
      fb.val ≤ fa.val := by
  rw [decide_eq_true_eq, rowComparator_desc, hfa, hfb]
  exact compareJS_le_iff fb fa hb ha

/-- The sorted sequence ascending by column `c` is pairwise ordered. -/
theorem sortRows_asc_pairwise (c : String) (rows : List Row)
    (hkeys : ∀ r ∈ rows, finiteKey c r) :
    (sortRows (some [("column", c), ("order", "asc")]) rows).Pairwise
      (fun a b => (decide (rowComparator [("column", c), ("order", "asc")] a b ≤ 0)) = true) := by
  refine pairwise_insertionSort _ (finiteKey c) ?_ ?_ rows hkeys
  · rintro a b ⟨fa, hfa, hda⟩ ⟨fb, hfb, hdb⟩
    rcases le_total fa.val fb.val with h | h
    · exact Or.inl ((asc_le_iff c a b fa fb hfa hfb hda hdb).2 h)
    · exact Or.inr ((asc_le_iff c b a fb fa hfb hfa hdb hda).2 h)
  · rintro a b z ⟨fa, hfa, hda⟩ ⟨fb, hfb, hdb⟩ ⟨fz, hfz, hdz⟩ h1 h2
    exact (asc_le_iff c a z fa fz hfa hfz hda hdz).2
      (le_trans ((asc_le_iff c a b fa fb hfa hfb hda hdb).1 h1)
        ((asc_le_iff c b z fb fz hfb hfz hdb hdz).1 h2))

/-- The sorted sequence descending by column `c` is pairwise ordered the
other way. -/
theorem sortRows_desc_pairwise (c : String) (rows : List Row)
    (hkeys : ∀ r ∈ rows, finiteKey c r) :
    (sortRows (some [("column", c), ("order", "desc")]) rows).Pairwise
      (fun a b => (decide (rowComparator [("column", c), ("order", "desc")] a b ≤ 0)) = true) := by
  refine pairwise_insertionSort _ (finiteKey c) ?_ ?_ rows hkeys
  · rintro a b ⟨fa, hfa, hda⟩ ⟨fb, hfb, hdb⟩
    rcases le_total fb.val fa.val with h | h
    · exact Or.inl ((desc_le_iff c a b fa fb hfa hfb hda hdb).2 h)
    · exact Or.inr ((desc_le_iff c b a fb fa hfb hfa hdb hda).2 h)
  · rintro a b z ⟨fa, hfa, hda⟩ ⟨fb, hfb, hdb⟩ ⟨fz, hfz, hdz⟩ h1 h2
    exact (desc_le_iff c a z fa fz hfa hfz hda hdz).2
      (le_trans ((desc_le_iff c b z fb fz hfb hfz hdb hdz).1 h2)
        ((desc_le_iff c a b fa fb hfa hfb hda hdb).1 h1))

/-- The stored rows after a successful non-empty render are the sorted
sequence. -/
theorem renderRows_rows (st : DataTable) (rows : List Row)
    (sel : Option (Row → Bool)) (st' : DataTable) (hne : rows ≠ [])
    (h : renderRows st rows sel = some st') :
    st'.rows = sortRows st.sortOptions rows := by
  cases rows with
  | nil => exact absurd rfl hne
  | cons r rest =>
    simp only [renderRows] at h
    split at h
    · simp at h
    · rw [Option.some.injEq] at h
      subst h
      rfl

/-- C3: with a well-formed numeric sort column, the post-sort sequence is
a permutation of the input in which strictly smaller keys appear strictly
earlier under `"asc"` and strictly later under `"desc"`; and a successful
render stores exactly that sorted sequence back into the component (the
in-place reorder). -/
theorem claim_C3 (c : String) (rows : List Row) (hne : rows ≠ [])
    (hkeys : ∀ r ∈ rows, finiteKey c r) :
    (List.Perm (sortRows (some [("column", c), ("order", "asc")]) rows) rows ∧
      ∀ i j : Fin (sortRows (some [("column", c), ("order", "asc")]) rows).length,
        jsLt (rowGet ((sortRows (some [("column", c), ("order", "asc")]) rows).get i) c)
            (rowGet ((sortRows (some [("column", c), ("order", "asc")]) rows).get j) c) = true →
          (i : ℕ) < (j : ℕ)) ∧
    (List.Perm (sortRows (some [("column", c), ("order", "desc")]) rows) rows ∧
      ∀ i j : Fin (sortRows (some [("column", c), ("order", "desc")]) rows).length,
        jsLt (rowGet ((sortRows (some [("column", c), ("order", "desc")]) rows).get i) c)
            (rowGet ((sortRows (some [("column", c), ("order", "desc")]) rows).get j) c) = true →
          (j : ℕ) < (i : ℕ)) ∧
    (∀ (st : DataTable) (sel : Option (Row → Bool)) (st' : DataTable),
      renderRows st rows sel = some st' → st'.rows = sortRows st.sortOptions rows) := by
  have hpermA : List.Perm (sortRows (some [("column", c), ("order", "asc")]) rows) rows :=
    insertionSort_perm _ rows
  have hpermD : List.Perm (sortRows (some [("column", c), ("order", "desc")]) rows) rows :=
    insertionSort_perm _ rows
  refine ⟨⟨hpermA, ?_⟩, ⟨hpermD, ?_⟩, ?_⟩
  · intro i j hij
    have hpw := sortRows_asc_pairwise c rows hkeys
    obtain ⟨fi, hfi, hdi⟩ :=
      hkeys _ (hpermA.mem_iff.mp (List.get_mem _ i.1 i.2))
    obtain ⟨fj, hfj, hdj⟩ :=
      hkeys _ (hpermA.mem_iff.mp (List.get_mem _ j.1 j.2))
    rw [hfi, hfj, jsLt_fin] at hij
    have hv : fi.val < fj.val := (Frac.lt_iff fi fj hdi hdj).1 hij
    by_contra hnot
    rcases Nat.lt_or_ge (j : ℕ) (i : ℕ) with hji | hge
    · have hle := List.pairwise_iff_get.mp hpw j i hji
      have := (asc_le_iff c _ _ fj fi hfj hfi hdj hdi).1 hle
      exact absurd hv (not_lt.mpr this)
    · have hij2 : i = j := Fin.ext (by omega)
      subst hij2
      rw [hfi] at hfj
      simp only [JSVal.num.injEq, JSNum.fin.injEq] at hfj
      subst hfj
      exact lt_irrefl _ hv
  · intro i j hij
    have hpw := sortRows_desc_pairwise c rows hkeys
    obtain ⟨fi, hfi, hdi⟩ :=
      hkeys _ (hpermD.mem_iff.mp (List.get_mem _ i.1 i.2))
    obtain ⟨fj, hfj, hdj⟩ :=
      hkeys _ (hpermD.mem_iff.mp (List.get_mem _ j.1 j.2))
    rw [hfi, hfj, jsLt_fin] at hij
    have hv : fi.val < fj.val := (Frac.lt_iff fi fj hdi hdj).1 hij
    by_contra hnot
    rcases Nat.lt_or_ge (i : ℕ) (j : ℕ) with hij' | hge
    · have hle := List.pairwise_iff_get.mp hpw i j hij'
      have := (desc_le_iff c _ _ fi fj hfi hfj hdi hdj).1 hle
      exact absurd hv (not_lt.mpr this)
    · have hij2 : i = j := Fin.ext (by omega)
      subst hij2
      rw [hfi] at hfj
      simp only [JSVal.num.injEq, JSNum.fin.injEq] at hfj
      subst hfj
      exact lt_irrefl _ hv
  · intro st sel st' h
    exact renderRows_rows st rows sel st' hne h

/-- C9: a successful non-empty render produces exactly
`min(rows.length, pageSize)` body rows, and they are precisely the first
entries of the post-sort sequence, in order. -/
theorem claim_C9 (st : DataTable) (rows : List Row) (sel : Option (Row → Bool))
    (st' : DataTable) (hne : rows ≠ []) (hp : 0 ≤ st.pageSize)
    (h : renderRows st rows sel = some st') :
    st'.tbody.length = min rows.length st.pageSize.toNat ∧
      List.map (fun b => b.row) st'.tbody =
        (sortRows st.sortOptions rows).take (min rows.length st.pageSize.toNat) := by
  cases rows with
  | nil => exact absurd rfl hne
  | cons r rest =>
    simp only [renderRows] at h
    split at h
    · simp at h
    · rw [Option.some.injEq] at h
      subst h
      have hlen : (sortRows st.sortOptions (r :: rest)).length = (r :: rest).length :=
        sortRows_length _ _
      have hcount :
          (min ((sortRows st.sortOptions (r :: rest)).length : Int) st.pageSize).toNat =
            min (r :: rest).length st.pageSize.toNat := by
        rw [hlen]
        omega
      constructor
      · simp only [List.length_map, List.enum_length, List.length_take, hcount, hlen]
        omega
      · rw [List.map_map]
        have hcomp :
            ((fun b : BodyRow => b.row) ∘
              (fun p : ℕ × Row => BodyRow.mk p.1 p.2
                (sel.map fun f => if f p.2 then "selected" else "unselected")
                ((st.columns.getD
                    (objKeys ((sortRows st.sortOptions (r :: rest)).headD r))).map
                  fun col => formatCell st.formatters col p.2))) = Prod.snd :=
          funext fun p => rfl
        rw [hcomp, List.enum_map_snd, hcount]

/-- C3, witness: the sort properties at a concrete three-row sequence
with numeric keys 3, 1, 2 in column `"a"`. -/
theorem claim_C3_witness :
    (List.Perm (sortRows (some [("column", "a"), ("order", "asc")]) sampleRows3) sampleRows3 ∧
      ∀ i j : Fin (sortRows (some [("column", "a"), ("order", "asc")]) sampleRows3).length,
        jsLt (rowGet ((sortRows (some [("column", "a"), ("order", "asc")]) sampleRows3).get i) "a")
            (rowGet ((sortRows (some [("column", "a"), ("order", "asc")]) sampleRows3).get j) "a") = true →
          (i : ℕ) < (j : ℕ)) ∧
    (List.Perm (sortRows (some [("column", "a"), ("order", "desc")]) sampleRows3) sampleRows3 ∧
      ∀ i j : Fin (sortRows (some [("column", "a"), ("order", "desc")]) sampleRows3).length,
        jsLt (rowGet ((sortRows (some [("column", "a"), ("order", "desc")]) sampleRows3).get i) "a")
            (rowGet ((sortRows (some [("column", "a"), ("order", "desc")]) sampleRows3).get j) "a") = true →
          (j : ℕ) < (i : ℕ)) ∧
    (∀ (st : DataTable) (sel : Option (Row → Bool)) (st' : DataTable),
      renderRows st sampleRows3 sel = some st' → st'.rows = sortRows st.sortOptions sampleRows3) :=
  claim_C3 "a" sampleRows3 (by decide) (by
    intro r hr
    simp only [sampleRows3, List.mem_cons, List.not_mem_nil, or_false] at hr
    rcases hr with rfl | rfl | rfl
    · exact ⟨⟨3, 1⟩, rfl, by decide⟩
    · exact ⟨⟨1, 1⟩, rfl, by decide⟩
    · exact ⟨⟨2, 1⟩, rfl, by decide⟩)

/-- C9, witness: rendering fifty rows with the default page size 30
yields exactly 30 body rows, the first 30 of the post-sort sequence. -/
theorem claim_C9_witness :
    sample50Rendered.tbody.length = min sampleRows50.length tablePlain.pageSize.toNat ∧
      List.map (fun b => b.row) sample50Rendered.tbody =
        (sortRows tablePlain.sortOptions sampleRows50).take
          (min sampleRows50.length tablePlain.pageSize.toNat) :=
  claim_C9 tablePlain sampleRows50 none sample50Rendered (by decide) (by decide) (by rfl)

end Datatable
